import Mathlib

/-!
Verification of the object-namespace session engine of the react-s3-ui
client (src/src/App.jsx) against its natural-language specification.

The JavaScript source is shallowly embedded: network calls are modelled by
passing their results (listing pages, error names, transfer callbacks) as
explicit inputs, and the state updates performed by the handlers are
modelled as pure functions on an explicit application-state record.
-/

set_option autoImplicit false

namespace S3UI

/-! ### Keys and store-side listing semantics -/

/-- Store-side semantics of the ListObjectsV2 Prefix parameter with no
Delimiter: a key is returned exactly when the request prefix is a string
prefix of the key. Keys are compared by their character sequences. -/
def startsWithKey (p k : String) : Bool :=
  p.data.isPrefixOf k.data

/-- Folder test used throughout App.jsx: key.endsWith("/"). For the
one-character delimiter this is exactly the test that the last character
of the key is the slash. -/
def keyIsFolder (k : String) : Bool :=
  k.data.getLast? = some '/'

/-- All keys of the store that a flat (no-delimiter) listing under the
given request prefix returns, in store order. -/
def keysUnder (store : List String) (p : String) : List String :=
  store.filter (fun k => startsWithKey p k)

/-! ### getAllKeysInPrefix (App.jsx lines 373-383)

The do-while loop issues one ListObjectsV2 request per continuation page
and accumulates response.Contents keys. A run of the loop is determined by
the sequence of pages the store hands back, so the loop is embedded as a
fold over that page sequence. -/

/-- Accumulating loop body: keys.push(...response.Contents.map(item => item.Key)),
iterated while a continuation token remains. -/
def getAllKeysInPrefixGo : List (List String) → List String → List String
  | [], keys => keys
  | page :: rest, keys => getAllKeysInPrefixGo rest (keys ++ page)

/-- getAllKeysInPrefix: accumulate every object key across all continuation
pages, starting from the empty accumulator. -/
def getAllKeysInPrefix (pages : List (List String)) : List String :=
  getAllKeysInPrefixGo pages []

/-! ### Recursive key resolution (App.jsx lines 385-393) -/

/-- The selection loop of handleDeleteSelected: for each selected key, a
folder key (ends with the delimiter) is expanded through getAllKeysInPrefix
on the page sequence the store serves for it, a file key is taken as-is.
The argument pagesFor gives, for each request prefix, the continuation
pages the store returns. -/
def resolveKeys (pagesFor : String → List (List String)) : List String → List String
  | [] => []
  | k :: rest =>
      (if keyIsFolder k then getAllKeysInPrefix (pagesFor k) else [k])
        ++ resolveKeys pagesFor rest

/-- JavaScript deduplication idiom [...new Set(list)]: keep the first
occurrence of every element, in insertion order. -/
def jsDedup (l : List String) : List String :=
  l.foldl (fun acc k => if k ∈ acc then acc else acc ++ [k]) []

/-! ### Bulk delete orchestration (App.jsx lines 394-408) -/

/-- Outcome record of one run of handleDeleteSelected: the batched delete
requests actually sent, the alert message shown (none when the handler
returns before the try block), and whether the listing was refreshed. -/
structure DeleteOutcome where
  deleteRequests : List (List String)
  alert : Option String
  refreshed : Bool
  deriving DecidableEq, Repr

/-- Requests sent for a resolved key set: the guard on line 394 returns
early on an empty set, otherwise a single DeleteObjectsCommand carrying
every key is sent (line 400). No chunking is performed. -/
def issueDeleteRequests (allKeysToDelete : List String) : List (List String) :=
  if allKeysToDelete.isEmpty then [] else [allKeysToDelete]

/-- handleDeleteSelected: resolve the selection, deduplicate, return early
when nothing is left, otherwise send one delete request for everything and
report success or failure; sendOk tells whether the single request
succeeds. The finally block closes the modal and refreshes the listing. -/
def handleDeleteSelected (pagesFor : String → List (List String))
    (selectedItems : List String) (sendOk : Bool) : DeleteOutcome :=
  if selectedItems.isEmpty then
    { deleteRequests := [], alert := none, refreshed := false }
  else
    let allKeysToDelete := jsDedup (resolveKeys pagesFor selectedItems)
    if allKeysToDelete.isEmpty then
      { deleteRequests := [], alert := none, refreshed := false }
    else
      { deleteRequests := issueDeleteRequests allKeysToDelete
        alert := some (if sendOk then
            toString allKeysToDelete.length ++ " item(s) deleted successfully."
          else "Failed to delete items.")
        refreshed := true }

/-! ### Namespace navigator (App.jsx lines 320-336, 450, 479, 491-496, 550) -/

/-- One element of response.Contents of a delimited listing. -/
structure S3Content where
  Key : String
  Size : Nat
  LastModified : Nat
  deriving DecidableEq, Repr

/-- Listing entry kept in the objects state: folder rows are built from
CommonPrefixes with only Key and isFolder, file rows spread the content
record and add isFolder false. -/
structure ObjEntry where
  Key : String
  isFolder : Bool
  Size : Option Nat := none
  LastModified : Option Nat := none
  deriving DecidableEq, Repr

/-- Lines 326-330 of fetchObjects: folders from CommonPrefixes, then files
from Contents with any object whose key equals the current request prefix
filtered out, folders first. -/
def fetchObjectsResult (commonPrefixes : List String) (contents : List S3Content)
    (currentPrefix : String) : List ObjEntry :=
  let folders := commonPrefixes.map (fun p => { Key := p, isFolder := true : ObjEntry })
  let files := (contents.filter (fun c => c.Key ≠ currentPrefix)).map
    (fun c => { Key := c.Key, isFolder := false,
                Size := some c.Size, LastModified := some c.LastModified : ObjEntry })
  folders ++ files

/-- The pieces of App component state that the navigator touches. -/
structure AppState where
  selectedBucket : Option String
  currentPrefix : String
  objects : List ObjEntry
  selectedItems : List String
  searchQuery : String
  deriving DecidableEq, Repr

/-- Result of the ListObjectsV2 round-trip inside fetchObjects. -/
inductive ListingResult where
  | success (commonPrefixes : List String) (contents : List S3Content)
  | failure
  deriving DecidableEq, Repr

/-- fetchObjects(bucket, currentPrefix) as a state transition, lines
320-336: return unchanged when no bucket is selected; otherwise clear the
selection and the search query, then either install the freshly mapped
listing or, on failure, only show an alert, leaving objects untouched. -/
def fetchObjectsStep (s : AppState) (r : ListingResult) : AppState :=
  if s.selectedBucket = none then s
  else
    match r with
    | .success cps cts =>
        { s with selectedItems := [], searchQuery := "",
                 objects := fetchObjectsResult cps cts s.currentPrefix }
    | .failure => { s with selectedItems := [], searchQuery := "" }

/-- Breadcrumb row of line 450: the root label, the bucket name, then the
nonempty slash-separated segments of the current prefix. -/
def breadcrumbSegments (s : AppState) : List String :=
  "Buckets" :: (s.selectedBucket.getD "")
    :: ((s.currentPrefix.splitOn "/").filter (fun seg => seg ≠ ""))

/-- The state updates a navigation gesture performs before the listing
effect runs: bucket click in the sidebar (line 479), breadcrumb click at
index i (line 493), folder row click (line 550). -/
inductive NavAction where
  | selectBucket (name : String)
  | crumb (i : Nat)
  | openFolder (key : String)
  deriving DecidableEq, Repr

/-- Apply the setSelectedBucket / setPrefix calls of a navigation gesture.
The breadcrumb handler distinguishes the root crumb (clears the bucket),
the bucket crumb (clears the prefix) and a path crumb, whose new prefix is
breadcrumbs.slice(2, i+1).join("/") plus a trailing slash. -/
def applyNav (s : AppState) : NavAction → AppState
  | .selectBucket name => { s with selectedBucket := some name, currentPrefix := "" }
  | .crumb i =>
      if i = 0 then { s with selectedBucket := none, currentPrefix := "" }
      else if i = 1 then { s with currentPrefix := "" }
      else { s with currentPrefix :=
        String.intercalate "/" (((breadcrumbSegments s).drop 2).take (i - 1)) ++ "/" }
  | .openFolder key => { s with currentPrefix := key }

/-- A navigation gesture followed by the effect of lines 437-439: when the
bucket or the prefix actually changed, fetchObjects runs with the listing
result r; otherwise the effect does not fire again. -/
def navigate (s : AppState) (a : NavAction) (r : ListingResult) : AppState :=
  if (applyNav s a).selectedBucket = s.selectedBucket ∧
     (applyNav s a).currentPrefix = s.currentPrefix then applyNav s a
  else fetchObjectsStep (applyNav s a) r

/-! ### Upload tracking (App.jsx lines 338-367) -/

/-- Progress percentage computed by the httpUploadProgress handler on line
354: Math.round((loaded / total) * 100) when a total is known and nonzero,
0 otherwise. The double-precision computation is modelled by exact
round-half-up arithmetic on naturals. -/
def progressPercent (loaded : Nat) (total : Option Nat) : Nat :=
  match total with
  | none => 0
  | some t => if t = 0 then 0 else (200 * loaded + t) / (2 * t)

/-- One selected local file as the transfer layer sees it: the progress
callbacks (loaded, total) its transfer delivers, and whether the transfer
succeeds. -/
structure FileUpload where
  callbacks : List (Nat × Option Nat)
  succeeds : Bool
  deriving DecidableEq, Repr

/-- Observable events of handleFileUpload, tagged with the per-invocation
task id: the task is added to uploadingFiles, its progress field is set,
and the task settles (success or failure) and is removed. -/
inductive UploadEvent where
  | start (id : Nat)
  | progressSet (id : Nat) (percent : Nat)
  | settle (id : Nat) (success : Bool)
  deriving DecidableEq, BEq, Repr

/-- The events one iteration of the upload loop emits for its file: the
setUploadingFiles insertion, one progressSet per callback, then the
settlement that the finally block turns into a removal. -/
def taskTrace (i : Nat) (f : FileUpload) : List UploadEvent :=
  UploadEvent.start i
    :: (f.callbacks.map (fun c => UploadEvent.progressSet i (progressPercent c.1 c.2))
        ++ [UploadEvent.settle i f.succeeds])

/-- The for-of loop of handleFileUpload awaits parallelUploads3.done()
inside the loop body, so the whole trace is the concatenation of the
per-file traces in selection order. -/
def handleFileUploadTraceGo : Nat → List FileUpload → List UploadEvent
  | _, [] => []
  | i, f :: rest => taskTrace i f ++ handleFileUploadTraceGo (i + 1) rest

/-- Event trace of handleFileUpload over the selected files. -/
def handleFileUploadTrace (files : List FileUpload) : List UploadEvent :=
  handleFileUploadTraceGo 0 files

/-- Effect of one event on the uploadingFiles list: start appends the new
task, a progress update maps over the list without changing membership,
settlement filters the task out. -/
def uploadingStep (acc : List Nat) : UploadEvent → List Nat
  | .start i => acc ++ [i]
  | .progressSet _ _ => acc
  | .settle i _ => acc.filter (fun j => j ≠ i)

/-- The ids present in uploadingFiles after a prefix of the trace. -/
def uploadingAfter (trace : List UploadEvent) : List Nat :=
  trace.foldl uploadingStep []

/-- Task id an event belongs to. -/
def eventId : UploadEvent → Nat
  | .start i => i
  | .progressSet i _ => i
  | .settle i _ => i

/-- The subsequence of the trace belonging to one task. -/
def taskEventsOf (i : Nat) (trace : List UploadEvent) : List UploadEvent :=
  trace.filter (fun e => eventId e = i)

/-! ### Session connect (App.jsx lines 108-131 and 268-294) -/

/-- Alert produced by handleConnect: the connect attempt sends a
ListBucketsCommand and succeeds (no alert) exactly when that listing call
does; on failure the alert embeds the error name. The argument is the
error name of the failed listing call, or none when it succeeded. -/
def handleConnectAlert (listBucketsError : Option String) : Option String :=
  match listBucketsError with
  | none => none
  | some errorName => some ("Connection failed: " ++ errorName ++ ".")

/-- Message produced by handleTestConnection for a failed test listing
call: a NetworkError (the CORS-class failure surfaced by the browser) gets
the CORS remediation text, every other error name (credential failures
included) gets the credentials remediation text. -/
def handleTestConnectionMessage (errorName : String) : String :=
  if errorName = "NetworkError" then
    "Error: " ++ errorName ++ ". This could be a CORS issue. Please check the CORS configuration of your Minio server."
  else
    "Error: " ++ errorName ++ ". Check your credentials and endpoint URL."

/-! ### Concrete fixtures used by counterexamples and witnesses -/

/-- A resolved key set of 1001 distinct keys, one more than the 1000-key
cap of the S3 DeleteObjects API. -/
def ksBig : List String :=
  (List.range 1001).map (fun n => Nat.repr n)

/-- Two selected files: the first delivers one halfway callback and then
fails, the second delivers one complete callback and succeeds. -/
def uploadFilesW : List FileUpload :=
  [{ callbacks := [(5, some 10)], succeeds := false },
   { callbacks := [(1, some 1)], succeeds := true }]

/-- State showing the listing of bucket A, nothing selected. -/
def stateBucketA : AppState :=
  { selectedBucket := some "A", currentPrefix := "",
    objects := [{ Key := "report.txt", isFolder := false, Size := some 4, LastModified := some 0 }],
    selectedItems := [], searchQuery := "" }

/-- State inside a folder of bucket A with one item selected and an
active filter query. -/
def stateWithSelection : AppState :=
  { selectedBucket := some "A", currentPrefix := "docs/",
    objects := [{ Key := "docs/f.txt", isFolder := false, Size := some 1, LastModified := some 0 }],
    selectedItems := ["docs/f.txt"], searchQuery := "f" }

/-- Store for the resolver witness: a folder y/ with a marker object and a
nested key, two keys under a/, one nested deeper, and a loose file x. -/
def storeW5 : List String :=
  ["y/", "y/x2", "a/1", "a/2", "a/sub/3", "x"]

/-- Mixed selection of a file and a folder. -/
def selW5 : List String :=
  ["x", "y/"]

/-- Pagination oracle serving every listing in one single page. -/
def pf1W5 : String → List (List String) :=
  fun p => [keysUnder storeW5 p]

/-- Pagination oracle serving every listing one key per page. -/
def pf2W5 : String → List (List String) :=
  fun p => (keysUnder storeW5 p).map (fun k => [k])

/-- Pagination oracle for an empty folder: every page sequence is empty. -/
def pfEmptyPages : String → List (List String) :=
  fun _ => []

/-- Store for the marker-object witness. -/
def storeW10 : List String :=
  ["y/", "y/x2", "z"]

/-- Single-page pagination oracle over storeW10. -/
def pfW10 : String → List (List String) :=
  fun p => [keysUnder storeW10 p]

/-- Contents returned for a listing under the request prefix p/ where a
folder-marker object exists at the prefix itself. -/
def contentsW9 : List S3Content :=
  [{ Key := "p/", Size := 0, LastModified := 0 },
   { Key := "p/a", Size := 1, LastModified := 2 }]

/-- The file entry the listing of contentsW9 produces. -/
def entryW9 : ObjEntry :=
  { Key := "p/a", isFolder := false, Size := some 1, LastModified := some 2 }

/-! ### Helper lemmas -/

theorem getAllKeysInPrefixGo_eq (pages : List (List String)) :
    ∀ acc, getAllKeysInPrefixGo pages acc = acc ++ pages.flatten := by
  induction pages with
  | nil => intro acc; simp [getAllKeysInPrefixGo]
  | cons page rest ih =>
      intro acc
      simp [getAllKeysInPrefixGo, ih, List.append_assoc]

theorem getAllKeysInPrefix_eq_flatten (pages : List (List String)) :
    getAllKeysInPrefix pages = pages.flatten := by
  simp [getAllKeysInPrefix, getAllKeysInPrefixGo_eq]

theorem flatten_map_singleton {α : Type} (l : List α) :
    (l.map (fun a => [a])).flatten = l := by
  induction l with
  | nil => rfl
  | cons a l ih => simp [ih]

theorem jsDedupGo_mem (l : List String) :
    ∀ (acc : List String) (a : String),
      a ∈ l.foldl (fun acc k => if k ∈ acc then acc else acc ++ [k]) acc
        ↔ a ∈ acc ∨ a ∈ l := by
  induction l with
  | nil => intro acc a; simp
  | cons k l ih =>
      intro acc a
      by_cases hk : k ∈ acc
      · rw [List.foldl_cons, if_pos hk, ih]
        constructor
        · rintro (h | h)
          · exact Or.inl h
          · exact Or.inr (List.mem_cons_of_mem _ h)
        · rintro (h | h)
          · exact Or.inl h
          · rcases List.mem_cons.mp h with rfl | h
            · exact Or.inl hk
            · exact Or.inr h
      · rw [List.foldl_cons, if_neg hk, ih]
        simp only [List.mem_append, List.mem_singleton, List.mem_cons]
        tauto

theorem jsDedupGo_nodup (l : List String) :
    ∀ (acc : List String), acc.Nodup →
      (l.foldl (fun acc k => if k ∈ acc then acc else acc ++ [k]) acc).Nodup := by
  induction l with
  | nil => intro acc h; simpa using h
  | cons k l ih =>
      intro acc h
      by_cases hk : k ∈ acc
      · rw [List.foldl_cons, if_pos hk]; exact ih acc h
      · rw [List.foldl_cons, if_neg hk]
        refine ih _ ?_
        simp [List.nodup_append, h, hk]

theorem mem_jsDedup (l : List String) (a : String) :
    a ∈ jsDedup l ↔ a ∈ l := by
  rw [jsDedup, jsDedupGo_mem]
  simp

theorem jsDedup_nodup (l : List String) : (jsDedup l).Nodup :=
  jsDedupGo_nodup l [] List.nodup_nil

theorem mem_keysUnder (store : List String) (p a : String) :
    a ∈ keysUnder store p ↔ a ∈ store ∧ startsWithKey p a = true := by
  simp [keysUnder]

theorem startsWithKey_self (p : String) : startsWithKey p p = true := by
  simp [startsWithKey, List.isPrefixOf_iff_prefix]

theorem mem_resolveKeys (pagesFor : String → List (List String))
    (sel : List String) (a : String) :
    a ∈ resolveKeys pagesFor sel
      ↔ ∃ k, k ∈ sel ∧
          a ∈ (if keyIsFolder k then getAllKeysInPrefix (pagesFor k) else [k]) := by
  induction sel with
  | nil => simp [resolveKeys]
  | cons k rest ih =>
      simp only [resolveKeys, List.mem_append, ih, List.mem_cons]
      constructor
      · rintro (h | ⟨k', hk', ha⟩)
        · exact ⟨k, Or.inl rfl, h⟩
        · exact ⟨k', Or.inr hk', ha⟩
      · rintro ⟨k', (rfl | hk'), ha⟩
        · exact Or.inl ha
        · exact Or.inr ⟨k', hk', ha⟩

theorem resolveKeys_congr (pf1 pf2 : String → List (List String))
    (h : ∀ p, (pf1 p).flatten = (pf2 p).flatten) (sel : List String) :
    resolveKeys pf1 sel = resolveKeys pf2 sel := by
  induction sel with
  | nil => rfl
  | cons k rest ih =>
      simp only [resolveKeys, ih]
      congr 1
      by_cases hk : keyIsFolder k
      · rw [if_pos hk, if_pos hk, getAllKeysInPrefix_eq_flatten,
          getAllKeysInPrefix_eq_flatten, h]
      · rw [if_neg hk, if_neg hk]

theorem inflight_aux (i : Nat) (cs : List (Nat × Option Nat)) (ok : Bool)
    (rest : List UploadEvent)
    (hrest : ∀ t, (List.foldl uploadingStep [] (rest.take t)).length ≤ 1) :
    ∀ k, (List.foldl uploadingStep [i]
        (((cs.map (fun c => UploadEvent.progressSet i (progressPercent c.1 c.2)))
          ++ UploadEvent.settle i ok :: rest).take k)).length ≤ 1 := by
  induction cs with
  | nil =>
      intro k
      cases k with
      | zero => simp
      | succ k' =>
          simp only [List.map_nil, List.nil_append, List.take_succ_cons, List.foldl_cons]
          have hstep : uploadingStep [i] (UploadEvent.settle i ok) = [] := by
            simp [uploadingStep]
          rw [hstep]
          exact hrest k'
  | cons c cs ih =>
      intro k
      cases k with
      | zero => simp
      | succ k' =>
          simp only [List.map_cons, List.cons_append, List.take_succ_cons, List.foldl_cons]
          exact ih k'

theorem inflight_go (files : List FileUpload) :
    ∀ (i t : Nat),
      (List.foldl uploadingStep [] ((handleFileUploadTraceGo i files).take t)).length ≤ 1 := by
  induction files with
  | nil => intro i t; simp [handleFileUploadTraceGo]
  | cons f rest ih =>
      intro i t
      have hshape : handleFileUploadTraceGo i (f :: rest)
          = UploadEvent.start i
            :: ((f.callbacks.map (fun c => UploadEvent.progressSet i (progressPercent c.1 c.2)))
                ++ UploadEvent.settle i f.succeeds :: handleFileUploadTraceGo (i + 1) rest) := by
        simp [handleFileUploadTraceGo, taskTrace]
      rw [hshape]
      cases t with
      | zero => simp
      | succ t' =>
          simp only [List.take_succ_cons, List.foldl_cons]
          have h0 : uploadingStep [] (UploadEvent.start i) = [i] := by
            simp [uploadingStep]
          rw [h0]
          exact inflight_aux i f.callbacks f.succeeds _ (ih (i + 1)) t'

theorem eventId_taskTrace (i : Nat) (f : FileUpload) :
    ∀ e ∈ taskTrace i f, eventId e = i := by
  intro e he
  simp only [taskTrace, List.mem_cons, List.mem_append, List.mem_map,
    List.mem_singleton, List.not_mem_nil, or_false] at he
  rcases he with rfl | ⟨c, _, rfl⟩ | rfl <;> rfl

theorem taskEventsOf_taskTrace_self (i : Nat) (f : FileUpload) :
    taskEventsOf i (taskTrace i f) = taskTrace i f := by
  rw [taskEventsOf, List.filter_eq_self]
  intro e he
  simp [eventId_taskTrace i f e he]

theorem taskEventsOf_taskTrace_ne (i j : Nat) (f : FileUpload) (h : j ≠ i) :
    taskEventsOf i (taskTrace j f) = [] := by
  rw [taskEventsOf, List.filter_eq_nil_iff]
  intro e he
  simp [eventId_taskTrace j f e he, h]

theorem taskEventsOf_go_lt (files : List FileUpload) :
    ∀ (j n : Nat), n < j →
      taskEventsOf n (handleFileUploadTraceGo j files) = [] := by
  induction files with
  | nil => intro j n _; rfl
  | cons f rest ih =>
      intro j n hn
      simp only [handleFileUploadTraceGo, taskEventsOf, List.filter_append]
      rw [← taskEventsOf, ← taskEventsOf,
        taskEventsOf_taskTrace_ne n j f (by omega), ih (j + 1) n (by omega)]
      rfl

theorem taskEventsOf_go (files : List FileUpload) :
    ∀ (j i : Nat) (f : FileUpload), files[i]? = some f →
      taskEventsOf (j + i) (handleFileUploadTraceGo j files) = taskTrace (j + i) f := by
  induction files with
  | nil => intro j i f h; simp at h
  | cons f0 rest ih =>
      intro j i f h
      cases i with
      | zero =>
          have hf : f = f0 := by simpa using h.symm
          subst hf
          simp only [handleFileUploadTraceGo, taskEventsOf, List.filter_append, Nat.add_zero]
          rw [← taskEventsOf, ← taskEventsOf, taskEventsOf_taskTrace_self,
            taskEventsOf_go_lt rest (j + 1) j (by omega), List.append_nil]
      | succ i' =>
          have h' : rest[i']? = some f := by simpa using h
          have hji : j + (i' + 1) = (j + 1) + i' := by omega
          simp only [handleFileUploadTraceGo, taskEventsOf, List.filter_append]
          rw [← taskEventsOf, ← taskEventsOf, hji,
            taskEventsOf_taskTrace_ne _ j f0 (by omega), ih (j + 1) i' f h',
            List.nil_append]

theorem progressPercent_le_100 (l t : Nat) (h : l ≤ t) :
    progressPercent l (some t) ≤ 100 := by
  simp only [progressPercent]
  by_cases ht : t = 0
  · simp [ht]
  · rw [if_neg ht]
    have h2t : 0 < 2 * t := by omega
    have hlt : 200 * l + t < 101 * (2 * t) := by omega
    exact Nat.lt_succ_iff.mp ((Nat.div_lt_iff_lt_mul h2t).mpr hlt)

theorem progressPercent_mono (l1 l2 t : Nat) (h : l1 ≤ l2) :
    progressPercent l1 (some t) ≤ progressPercent l2 (some t) := by
  simp only [progressPercent]
  by_cases ht : t = 0
  · simp [ht]
  · rw [if_neg ht, if_neg ht]
    exact Nat.div_le_div_right (by omega)

/-! ### Claim theorems -/

/-- C5: for every SelectionSet of mixed file keys and folder keys, the
recursive resolver returns the deduplicated union of the file keys taken
as-is and, per selected folder key, every object key accumulated across
all continuation pages of a flat listing under that key; and the resulting
key set is the same however the store splits the listing into pages. The
hypotheses say that each pagination oracle serves, across its pages,
exactly the keys of the store under the requested prefix. -/
theorem resolver_union_dedup_pagination_invariant
    (store sel : List String) (pf1 pf2 : String → List (List String))
    (h1 : ∀ p, (pf1 p).flatten = keysUnder store p)
    (h2 : ∀ p, (pf2 p).flatten = keysUnder store p) :
    (∀ a, a ∈ jsDedup (resolveKeys pf1 sel) ↔
        ∃ k, k ∈ sel ∧
          ((keyIsFolder k = false ∧ a = k) ∨
           (keyIsFolder k = true ∧ startsWithKey k a = true ∧ a ∈ store))) ∧
    (jsDedup (resolveKeys pf1 sel)).Nodup ∧
    jsDedup (resolveKeys pf1 sel) = jsDedup (resolveKeys pf2 sel) := by
  refine ⟨?_, jsDedup_nodup _, ?_⟩
  · intro a
    rw [mem_jsDedup, mem_resolveKeys]
    constructor
    · rintro ⟨k, hk, ha⟩
      by_cases hf : keyIsFolder k = true
      · rw [if_pos hf, getAllKeysInPrefix_eq_flatten, h1, mem_keysUnder] at ha
        exact ⟨k, hk, Or.inr ⟨hf, ha.2, ha.1⟩⟩
      · rw [if_neg hf] at ha
        exact ⟨k, hk, Or.inl ⟨by simpa using hf, List.mem_singleton.mp ha⟩⟩
    · rintro ⟨k, hk, ⟨hf, rfl⟩ | ⟨hf, hsw, hst⟩⟩
      · refine ⟨a, hk, ?_⟩
        rw [if_neg (by simp [hf])]
        exact List.mem_singleton.mpr rfl
      · refine ⟨k, hk, ?_⟩
        rw [if_pos hf, getAllKeysInPrefix_eq_flatten, h1, mem_keysUnder]
        exact ⟨hst, hsw⟩
  · rw [resolveKeys_congr pf1 pf2 (fun p => by rw [h1, h2]) sel]

/-- Witness for C5 on a concrete store and a mixed selection, with a
one-page oracle against a one-key-per-page oracle. -/
theorem resolver_union_dedup_pagination_invariant_witness :
    ("y/x2" ∈ jsDedup (resolveKeys pf1W5 selW5) ↔
        ∃ k, k ∈ selW5 ∧
          ((keyIsFolder k = false ∧ "y/x2" = k) ∨
           (keyIsFolder k = true ∧ startsWithKey k "y/x2" = true ∧ "y/x2" ∈ storeW5))) ∧
    (jsDedup (resolveKeys pf1W5 selW5)).Nodup ∧
    jsDedup (resolveKeys pf1W5 selW5) = jsDedup (resolveKeys pf2W5 selW5) := by
  have h := resolver_union_dedup_pagination_invariant storeW5 selW5 pf1W5 pf2W5
    (fun p => by simp [pf1W5]) (fun p => by simp [pf2W5, flatten_map_singleton])
  exact ⟨h.1 "y/x2", h.2.1, h.2.2⟩

/-- C7: when the recursive resolution of the selection is empty, the
handler returns before the try block: no delete request is sent, no alert
of any kind is shown and no refresh happens, that is a silent zero-deleted
no-op rather than an error. -/
theorem empty_resolution_noop (pagesFor : String → List (List String))
    (sel : List String) (sendOk : Bool)
    (h : jsDedup (resolveKeys pagesFor sel) = []) :
    (handleDeleteSelected pagesFor sel sendOk).deleteRequests = [] ∧
    (handleDeleteSelected pagesFor sel sendOk).alert = none ∧
    (handleDeleteSelected pagesFor sel sendOk).refreshed = false := by
  by_cases hs : sel.isEmpty = true
  · simp [handleDeleteSelected, hs]
  · simp [handleDeleteSelected, hs, h]

/-- Witness for C7: deleting a single empty folder. -/
theorem empty_resolution_noop_witness :
    (handleDeleteSelected pfEmptyPages ["empty/"] true).deleteRequests = [] ∧
    (handleDeleteSelected pfEmptyPages ["empty/"] true).alert = none ∧
    (handleDeleteSelected pfEmptyPages ["empty/"] true).refreshed = false :=
  empty_resolution_noop pfEmptyPages ["empty/"] true (by decide)

/-- C9: the delimited listing never yields a file entry whose key equals
the request prefix: the folder-marker object stored at the prefix itself is
filtered out of the file rows. -/
theorem listing_excludes_marker_file (commonPrefixes : List String)
    (contents : List S3Content) (currentPrefix : String) (e : ObjEntry)
    (he : e ∈ fetchObjectsResult commonPrefixes contents currentPrefix)
    (hf : e.isFolder = false) : e.Key ≠ currentPrefix := by
  simp only [fetchObjectsResult, List.mem_append, List.mem_map, List.mem_filter] at he
  rcases he with ⟨p, _, rfl⟩ | ⟨c, ⟨_, hc⟩, rfl⟩
  · simp at hf
  · simpa using hc

/-- Witness for C9: a listing under p/ whose contents include the marker
object at p/ itself. -/
theorem listing_excludes_marker_file_witness :
    entryW9 ∈ fetchObjectsResult ["p/d/"] contentsW9 "p/" ∧ entryW9.Key ≠ "p/" :=
  ⟨by decide,
   listing_excludes_marker_file ["p/d/"] contentsW9 "p/" entryW9 (by decide) (by decide)⟩

/-- C10: the recursive resolver passes only a Prefix and no Delimiter, so
for a selected folder key the resolved keys are exactly the stored keys
having it as a string prefix; in particular the folder-marker object whose
key is the folder key itself is resolved when the store holds it, and the
single delete request then carries the marker key too. -/
theorem flat_listing_resolves_all_and_marker
    (store : List String) (p : String) (pagesFor : String → List (List String))
    (h : (pagesFor p).flatten = keysUnder store p)
    (hp : keyIsFolder p = true) :
    (∀ a, a ∈ resolveKeys pagesFor [p] ↔ startsWithKey p a = true ∧ a ∈ store) ∧
    (p ∈ store → p ∈ resolveKeys pagesFor [p]) ∧
    (p ∈ store → ∃ r, r ∈ (handleDeleteSelected pagesFor [p] true).deleteRequests ∧ p ∈ r) := by
  have hmem : ∀ a, a ∈ resolveKeys pagesFor [p] ↔ startsWithKey p a = true ∧ a ∈ store := by
    intro a
    rw [mem_resolveKeys]
    constructor
    · rintro ⟨k, hk, ha⟩
      rcases List.mem_singleton.mp hk with rfl
      rw [if_pos hp, getAllKeysInPrefix_eq_flatten, h, mem_keysUnder] at ha
      exact ⟨ha.2, ha.1⟩
    · rintro ⟨hsw, hst⟩
      refine ⟨p, List.mem_singleton.mpr rfl, ?_⟩
      rw [if_pos hp, getAllKeysInPrefix_eq_flatten, h, mem_keysUnder]
      exact ⟨hst, hsw⟩
  refine ⟨hmem, fun hst => (hmem p).mpr ⟨startsWithKey_self p, hst⟩, fun hst => ?_⟩
  have hpm : p ∈ jsDedup (resolveKeys pagesFor [p]) :=
    (mem_jsDedup _ _).mpr ((hmem p).mpr ⟨startsWithKey_self p, hst⟩)
  have hne : (jsDedup (resolveKeys pagesFor [p])).isEmpty = false := by
    simp [List.isEmpty_iff]
    intro hE
    rw [hE] at hpm
    exact absurd hpm (List.not_mem_nil p)
  refine ⟨jsDedup (resolveKeys pagesFor [p]), ?_, hpm⟩
  simp [handleDeleteSelected, hne, issueDeleteRequests]

/-- Witness for C10: a store holding the marker object y/ itself. -/
theorem flat_listing_resolves_all_and_marker_witness :
    "y/" ∈ resolveKeys pfW10 ["y/"] :=
  (flat_listing_resolves_all_and_marker storeW10 "y/" pfW10
    (by simp [pfW10]) (by decide)).2.1 (by decide)

/-- C6: connect validation is the ListBuckets round-trip (success of the
attempt coincides with success of that listing call), and the failure
surface distinguishes the error kinds: the connect alert embeds the error
name, and the test-connection message branches on NetworkError, giving the
CORS-class failure a different remediation text than a credential
failure. -/
theorem connect_validates_and_distinguishes :
    handleConnectAlert none = none ∧
    (∀ errorName, (handleConnectAlert (some errorName)).isSome = true) ∧
    handleConnectAlert (some "NetworkError")
      ≠ handleConnectAlert (some "InvalidAccessKeyId") ∧
    handleTestConnectionMessage "NetworkError"
      ≠ handleTestConnectionMessage "InvalidAccessKeyId" ∧
    (∀ errorName, errorName ≠ "NetworkError" →
      handleTestConnectionMessage errorName =
        "Error: " ++ errorName ++ ". Check your credentials and endpoint URL.") := by
  refine ⟨rfl, fun n => rfl, by decide, by decide, fun n hn => ?_⟩
  simp [handleTestConnectionMessage, hn]

/-- Witness for C6 at a concrete credential-failure error name. -/
theorem connect_validates_and_distinguishes_witness :
    handleTestConnectionMessage "InvalidAccessKeyId" =
      "Error: " ++ "InvalidAccessKeyId" ++ ". Check your credentials and endpoint URL." ∧
    (handleConnectAlert (some "NetworkError")).isSome = true :=
  ⟨connect_validates_and_distinguishes.2.2.2.2 "InvalidAccessKeyId" (by decide),
   connect_validates_and_distinguishes.2.1 "NetworkError"⟩

/-- C1 counterexample: the orchestrator does not chunk. For a resolved key
set of 1001 keys — above the 1000-key cap of the S3 DeleteObjects API —
the claim requires two requests of at most 1000 keys each; the code issues
exactly one request carrying all 1001 keys. -/
theorem bulk_delete_no_chunking_counterexample :
    ksBig.length = 1001 ∧
    issueDeleteRequests ksBig = [ksBig] ∧
    (issueDeleteRequests ksBig).length = 1 ∧
    1000 < ksBig.length := by
  have hlen : ksBig.length = 1001 := by simp [ksBig]
  have hne : ksBig ≠ [] := by
    intro h
    rw [h] at hlen
    simp at hlen
  have hE : ksBig.isEmpty = false := by simp [List.isEmpty_iff, hne]
  refine ⟨hlen, ?_, ?_, by omega⟩
  · rw [issueDeleteRequests, hE]
    rfl
  · rw [issueDeleteRequests, hE]
    rfl

/-- C1 amended: whatever the size of the ResolvedKeySet, the orchestrator
issues at most one delete request, and any request it issues carries the
entire deduplicated resolved key set; a nonempty key set always yields
exactly that single request, so there are no further chunks to continue
with after a failure. -/
theorem bulk_delete_single_unchunked_request
    (pagesFor : String → List (List String)) (sel : List String) (sendOk : Bool) :
    (handleDeleteSelected pagesFor sel sendOk).deleteRequests.length ≤ 1 ∧
    (∀ r, r ∈ (handleDeleteSelected pagesFor sel sendOk).deleteRequests →
        r = jsDedup (resolveKeys pagesFor sel)) ∧
    (∀ ks : List String, ks ≠ [] → issueDeleteRequests ks = [ks]) := by
  have hD : (handleDeleteSelected pagesFor sel sendOk).deleteRequests = [] ∨
      (handleDeleteSelected pagesFor sel sendOk).deleteRequests
        = [jsDedup (resolveKeys pagesFor sel)] := by
    by_cases hs : sel.isEmpty = true
    · simp [handleDeleteSelected, hs]
    · by_cases hk : (jsDedup (resolveKeys pagesFor sel)).isEmpty = true
      · simp [handleDeleteSelected, hs, hk]
      · simp [handleDeleteSelected, hs, hk, issueDeleteRequests]
  refine ⟨?_, ?_, fun ks hks => ?_⟩
  · rcases hD with h | h <;> simp [h]
  · intro r hr
    rcases hD with h | h
    · rw [h] at hr
      exact absurd hr (List.not_mem_nil r)
    · rw [h] at hr
      exact List.mem_singleton.mp hr
  · rw [issueDeleteRequests, (by simp [List.isEmpty_iff, hks] : ks.isEmpty = false)]
    rfl

/-- Witness for C1 amended on a one-file selection. -/
theorem bulk_delete_single_unchunked_request_witness :
    (handleDeleteSelected pfEmptyPages ["doc.txt"] true).deleteRequests.length ≤ 1 ∧
    ["doc.txt"] = jsDedup (resolveKeys pfEmptyPages ["doc.txt"]) ∧
    issueDeleteRequests ["doc.txt"] = [["doc.txt"]] := by
  have h := bulk_delete_single_unchunked_request pfEmptyPages ["doc.txt"] true
  exact ⟨h.1, h.2.1 ["doc.txt"] (by decide), h.2.2 ["doc.txt"] (by decide)⟩

/-- C2 counterexample: two selected files are never in flight together.
The trace of handleFileUpload for a failing 10-byte file followed by a
succeeding 1-byte file is strictly sequential — the second start event
appears only after the first settle event, and the snapshot of the tracked
set after every trace position holds at most one task, with the set empty
at position 3, the instant before the second transfer starts. -/
theorem uploads_not_concurrent_counterexample :
    handleFileUploadTrace uploadFilesW =
      [UploadEvent.start 0, UploadEvent.progressSet 0 50, UploadEvent.settle 0 false,
       UploadEvent.start 1, UploadEvent.progressSet 1 100, UploadEvent.settle 1 true] ∧
    (List.range 7).map (fun t => uploadingAfter ((handleFileUploadTrace uploadFilesW).take t))
      = [[], [0], [0], [], [1], [1], []] := by decide

/-- C2 amended: the upload loop awaits each transfer before starting the
next, so tasks run sequentially — at most one task is tracked at any trace
position — while one task owns its full event subsequence: whatever the
other files do or fail to do, task i still emits exactly its own start,
its own progress updates and its own settlement, so a sibling failure
changes neither its progress trajectory nor its reaching the terminal
removal. -/
theorem uploads_sequential_and_independent (files : List FileUpload) :
    (∀ i f, files[i]? = some f →
        taskEventsOf i (handleFileUploadTrace files) = taskTrace i f) ∧
    (∀ t, (uploadingAfter ((handleFileUploadTrace files).take t)).length ≤ 1) := by
  constructor
  · intro i f h
    have := taskEventsOf_go files 0 i f h
    simpa using this
  · intro t
    exact inflight_go files 0 t

/-- Witness for C2 amended: the second file of the concrete pair keeps its
whole trajectory although the first file fails. -/
theorem uploads_sequential_and_independent_witness :
    taskEventsOf 1 (handleFileUploadTrace uploadFilesW)
      = taskTrace 1 { callbacks := [(1, some 1)], succeeds := true } ∧
    (uploadingAfter ((handleFileUploadTrace uploadFilesW).take 4)).length ≤ 1 := by
  have h := uploads_sequential_and_independent uploadFilesW
  exact ⟨h.1 1 _ (by decide), h.2 4⟩

/-- C3: the failing input. Bucket A is displayed with one file entry; the
user clicks bucket B and the listing of B fails. The catch branch of
fetchObjects only raises an alert, so the objects state still holds the
entries of bucket A while the state says bucket B is selected — the stale
listing the specification forbids. -/
theorem failed_listing_keeps_stale_objects :
    (navigate stateBucketA (NavAction.selectBucket "B") ListingResult.failure).objects
      = stateBucketA.objects ∧
    (navigate stateBucketA (NavAction.selectBucket "B") ListingResult.failure).selectedBucket
      = some "B" ∧
    stateBucketA.objects ≠ [] := by decide

/-- C4 counterexample: clearing the bucket to null via the root breadcrumb
does not clear the selection or the filter query. The root crumb sets the
bucket to null and the prefix to empty; the listing effect then calls
fetchObjects with a null bucket, which returns before the clearing lines,
so the old SelectionSet and query survive the context change. -/
theorem root_crumb_keeps_selection_counterexample :
    (navigate stateWithSelection (NavAction.crumb 0) ListingResult.failure).selectedBucket
      = none ∧
    (navigate stateWithSelection (NavAction.crumb 0) ListingResult.failure).selectedItems
      = ["docs/f.txt"] ∧
    (navigate stateWithSelection (NavAction.crumb 0) ListingResult.failure).searchQuery
      = "f" := by decide

/-- C4 amended: every navigator context change that leaves some bucket
selected clears the SelectionSet and the filter query on the next read,
whether the listing then succeeds or fails; only the change that clears
the bucket to null leaves them in place. -/
theorem context_change_clears_selection
    (s : AppState) (a : NavAction) (r : ListingResult) (b : String)
    (hchange : ¬((applyNav s a).selectedBucket = s.selectedBucket ∧
                 (applyNav s a).currentPrefix = s.currentPrefix))
    (hbucket : (applyNav s a).selectedBucket = some b) :
    (navigate s a r).selectedItems = [] ∧ (navigate s a r).searchQuery = "" := by
  rw [navigate, if_neg hchange]
  unfold fetchObjectsStep
  rw [if_neg (by simp [hbucket])]
  cases r <;> simp

/-- Witness for C4 amended: selecting bucket B while items of bucket A are
selected clears both the selection and the query, even on a failed
listing. -/
theorem context_change_clears_selection_witness :
    (navigate stateWithSelection (NavAction.selectBucket "B") ListingResult.failure).selectedItems
      = [] ∧
    (navigate stateWithSelection (NavAction.selectBucket "B") ListingResult.failure).searchQuery
      = "" :=
  context_change_clears_selection stateWithSelection (NavAction.selectBucket "B")
    ListingResult.failure "B" (by decide) (by decide)

/-- C8 counterexample: the progress handler neither clamps nor enforces
monotonicity. A callback reporting more loaded bytes than the total yields
150, outside [0,100]; and a callback sequence whose loaded value drops
from 1 to 0 yields the decreasing percentages 50 then 0. -/
theorem progress_percent_unclamped_counterexample :
    progressPercent 3 (some 2) = 150 ∧
    ¬ progressPercent 3 (some 2) ≤ 100 ∧
    progressPercent 1 (some 2) = 50 ∧
    progressPercent 0 (some 2) = 0 := by decide

/-- C8 amended: the percentage is round-half-up of 100 times loaded over
total, 0 whenever the total is unknown or zero; it stays within [0,100]
provided the reported loaded bytes do not exceed the total, and it is
non-decreasing provided the callbacks report non-decreasing loaded values
— the code itself adds no clamping and no monotonicity enforcement. -/
theorem progress_percent_properties (loaded1 loaded2 t : Nat) :
    progressPercent loaded1 none = 0 ∧
    progressPercent loaded1 (some 0) = 0 ∧
    (loaded2 ≤ t → progressPercent loaded2 (some t) ≤ 100) ∧
    (loaded1 ≤ loaded2 →
      progressPercent loaded1 (some t) ≤ progressPercent loaded2 (some t)) :=
  ⟨rfl, rfl, progressPercent_le_100 loaded2 t, progressPercent_mono loaded1 loaded2 t⟩

/-- Witness for C8 amended at concrete byte counts. -/
theorem progress_percent_properties_witness :
    progressPercent 7 none = 0 ∧
    progressPercent 7 (some 0) = 0 ∧
    progressPercent 5 (some 10) ≤ 100 ∧
    progressPercent 3 (some 10) ≤ progressPercent 5 (some 10) := by
  have h7 := progress_percent_properties 7 5 10
  have h := progress_percent_properties 3 5 10
  exact ⟨h7.1, h7.2.1, h.2.2.1 (by decide), h.2.2.2 (by decide)⟩

end S3UI
